import Mathlib

/-!
Verification of the shared content registry, tenant library, garbage
collector, download job orchestrator and blob-store boundary of the
Fireworks Planner backend (src/backend/database.py, src/backend/server.py,
src/backend/r2_storage.py).

The relational state is embedded as lists of rows; every database function
is translated directly from the corresponding Python function in
database.py, and the orchestrator logic from server.py.
-/

namespace FWP

/-- Row of the shared `videos` table (init_db, database.py).  The schema
declares `id` as the primary key, `filename TEXT UNIQUE NOT NULL`, and
`youtube_url`, `title`, `file_size` nullable, with NO uniqueness
constraint on `youtube_url`. -/
structure Video where
  id : Nat
  filename : String
  youtube_url : Option String
  title : Option String
  file_size : Option Nat
deriving Repr, DecidableEq

/-- Tenant-supplied metadata stored (as JSON text in the source) in a
library row; the code stores at least a title and a provenance URL. -/
structure Metadata where
  title : String
  sourceUrl : String
deriving Repr, DecidableEq

/-- Row of the `library` table: a per-tenant reference into `videos`,
composite-unique on `(user_id, video_id)`. -/
structure LibraryRow where
  id : Nat
  user_id : Nat
  video_id : Nat
  metadata : Metadata
deriving Repr, DecidableEq

/-- The relational store: the two tables touched by the registry and the
library, plus the next auto-increment keys. -/
structure DB where
  videos : List Video
  library : List LibraryRow
  nextVideoId : Nat
  nextLibraryId : Nat
deriving Repr, DecidableEq

/-- The empty database produced by init_db (auto-increment keys start at 1). -/
def DB.empty : DB := ⟨[], [], 1, 1⟩

/-- database.py get_video_by_filename: `SELECT * FROM videos WHERE filename = ?`,
fetchone returns the first matching row. -/
def get_video_by_filename (db : DB) (fn : String) : Option Video :=
  db.videos.find? (fun v => v.filename == fn)

/-- database.py get_video_by_youtube_url: `SELECT * FROM videos WHERE
youtube_url = ?`; in SQL a NULL youtube_url never compares equal to the
parameter, hence the `some` on the right. -/
def get_video_by_youtube_url (db : DB) (url : String) : Option Video :=
  db.videos.find? (fun v => v.youtube_url == some url)

/-- database.py create_video: tries `INSERT INTO videos (filename,
youtube_url, title, file_size)`; if the insert raises (the UNIQUE
constraint on filename), the except branch re-selects
`SELECT id FROM videos WHERE filename = ?` and returns that id. -/
def create_video (db : DB) (filename : String) (youtube_url : Option String)
    (title : Option String) (file_size : Option Nat) : Option Nat × DB :=
  if db.videos.any (fun v => v.filename == filename) then
    match get_video_by_filename db filename with
    | some v => (some v.id, db)
    | none => (none, db)
  else
    (some db.nextVideoId,
      { db with
        videos := db.videos ++
          [{ id := db.nextVideoId, filename := filename,
             youtube_url := youtube_url, title := title,
             file_size := file_size }],
        nextVideoId := db.nextVideoId + 1 })

/-- database.py add_video_to_library: upsert on `(user_id, video_id)` —
`ON CONFLICT (user_id, video_id) DO UPDATE SET metadata = ?` (PostgreSQL)
or `INSERT OR REPLACE` (SQLite).  Either way the row for the pair ends up
present with the new metadata; we keep the existing row id on conflict. -/
def add_video_to_library (db : DB) (uid vid : Nat) (md : Metadata) : DB :=
  if db.library.any (fun l => l.user_id == uid && l.video_id == vid) then
    { db with
      library := db.library.map (fun l =>
        if l.user_id == uid && l.video_id == vid then { l with metadata := md }
        else l) }
  else
    { db with
      library := db.library ++ [⟨db.nextLibraryId, uid, vid, md⟩],
      nextLibraryId := db.nextLibraryId + 1 }

/-- database.py get_video_reference_count:
`SELECT COUNT(*) FROM library WHERE video_id = ?`. -/
def get_video_reference_count (db : DB) (vid : Nat) : Nat :=
  (db.library.filter (fun l => l.video_id == vid)).length

/-- database.py remove_video_from_library: looks the video up by filename;
if absent returns False; otherwise `DELETE FROM library WHERE user_id = ?
AND video_id = ?` and reports whether a row was removed (rowcount > 0). -/
def remove_video_from_library (db : DB) (uid : Nat) (fn : String) : Bool × DB :=
  match db.videos.find? (fun v => v.filename == fn) with
  | none => (false, db)
  | some v =>
    let keep := db.library.filter (fun l => !(l.user_id == uid && l.video_id == v.id))
    (decide (keep.length < db.library.length), { db with library := keep })

/-- The loop in cleanup_orphaned_videos: `DELETE FROM videos WHERE id = ?`
executed once per orphaned row id. -/
def deleteVideosById (videos : List Video) (ids : List Nat) : List Video :=
  ids.foldl (fun vs i => vs.filter (fun v => !(v.id == i))) videos

/-- database.py cleanup_orphaned_videos: selects videos with no library
reference (`LEFT JOIN library l ON v.id = l.video_id WHERE l.id IS NULL`),
deletes each such row from `videos`, and returns their filenames. -/
def cleanup_orphaned_videos (db : DB) : List String × DB :=
  let orphaned := db.videos.filter (fun v => !(db.library.any (fun l => l.video_id == v.id)))
  (orphaned.map (fun v => v.filename),
    { db with videos := deleteVideosById db.videos (orphaned.map (fun v => v.id)) })

/-- database.py get_user_library: `SELECT v.filename, l.metadata FROM
library l JOIN videos v ON l.video_id = v.id WHERE l.user_id = ?`; the
caller builds a dict keyed by filename from these rows. -/
def get_user_library (db : DB) (uid : Nat) : List (String × Metadata) :=
  (db.library.filter (fun l => l.user_id == uid)).flatMap (fun l =>
    (db.videos.filter (fun v => v.id == l.video_id)).map (fun v => (v.filename, l.metadata)))

/-- Membership test `filename in user_lib` performed by the server against
the dict built from get_user_library. -/
def libraryHasFilename (db : DB) (uid : Nat) (fn : String) : Bool :=
  (get_user_library db uid).any (fun p => p.1 == fn)

/-- Well-formedness maintained by the schema: primary keys are unique, the
UNIQUE constraint on filename holds, and the auto-increment key is fresh. -/
def WFv (db : DB) : Prop :=
  (db.videos.map (fun v => v.id)).Nodup ∧
  (db.videos.map (fun v => v.filename)).Nodup ∧
  ∀ v ∈ db.videos, v.id < db.nextVideoId

instance (db : DB) : Decidable (WFv db) := by
  unfold WFv; infer_instance

/-- Database states reachable through the data-access layer: registrations
(create_video), attaches (add_video_to_library, always to an existing
video id, as the server only attaches ids obtained from lookups) and
detaches (remove_video_from_library). -/
inductive Reachable : DB → Prop
  | init : Reachable DB.empty
  | register (db : DB) (fn : String) (y : Option String) (t : Option String)
      (s : Option Nat) : Reachable db → Reachable (create_video db fn y t s).2
  | attach (db : DB) (uid : Nat) (v : Video) (md : Metadata) :
      Reachable db → v ∈ db.videos → Reachable (add_video_to_library db uid v.id md)
  | detach (db : DB) (uid : Nat) (fn : String) :
      Reachable db → Reachable (remove_video_from_library db uid fn).2

/-! ### String helpers mirroring the Python string operations used by server.py -/

/-- Python `pat in s` restricted to the head position: does `s` start with `pat`. -/
def isPrefixList : List Char → List Char → Bool
  | [], _ => true
  | _ :: _, [] => false
  | p :: ps, c :: cs => p == c && isPrefixList ps cs

/-- Python substring containment `pat in s`. -/
def charsContain (pat : List Char) : List Char → Bool
  | [] => isPrefixList pat []
  | c :: cs => isPrefixList pat (c :: cs) || charsContain pat cs

/-- Python `t in s` on strings. -/
def pyContains (s t : String) : Bool :=
  charsContain t.data s.data

/-- Python `str.strip()`: drop leading and trailing whitespace. -/
def pyStrip (s : String) : String :=
  ⟨((s.data.dropWhile Char.isWhitespace).reverse.dropWhile Char.isWhitespace).reverse⟩

/-- Characters of `s` before the first occurrence of `ch`; this is
`s.split(ch)[0]` in Python (the whole string when `ch` is absent). -/
def beforeChar (ch : Char) : List Char → List Char
  | [] => []
  | c :: cs => if c == ch then [] else c :: beforeChar ch cs

/-- Python `str.split()` with no argument: split on whitespace runs,
dropping empty tokens. -/
def wsSplit : List Char → List (List Char)
  | [] => []
  | c :: cs =>
    if c.isWhitespace then wsSplit cs
    else
      match wsSplit cs, cs with
      | toks, [] => (c :: []) :: toks
      | toks, c' :: _ =>
        if c'.isWhitespace then [c] :: toks
        else
          match toks with
          | [] => [[c]]
          | t :: ts => (c :: t) :: ts

/-- Numeric value of a digit string. -/
def natOfDigits (l : List Char) : Nat :=
  l.foldl (fun acc c => 10 * acc + (c.toNat - '0'.toNat)) 0

/-- Split a token at its first dot, if any. -/
def splitAtDot : List Char → List Char × Option (List Char)
  | [] => ([], none)
  | c :: cs =>
    if c == '.' then ([], some cs)
    else
      let p := splitAtDot cs
      (c :: p.1, p.2)

/-- Python `float(token)` for the decimal tokens yt-dlp prints as progress
percentages (forms `D+`, `D+.D*`, `.D+`); anything else fails, matching the
ValueError branch.  The value is represented exactly as a rational. -/
def parseDecimal (t : List Char) : Option ℚ :=
  match splitAtDot t with
  | (ip, none) =>
    if ip ≠ [] ∧ ip.all Char.isDigit then some (natOfDigits ip) else none
  | (ip, some fp) =>
    if (ip ≠ [] ∨ fp ≠ []) ∧ ip.all Char.isDigit ∧ fp.all Char.isDigit then
      some ((natOfDigits ip : ℚ) + (natOfDigits fp : ℚ) / (10 ^ fp.length))
    else none

/-! ### Acquisition runner model (run_ytdlp in server.py)

The subprocess loop of run_ytdlp reads the tool output line by line; each
line is stripped, a `[download] ... NN.N% ...` line overwrites the shared
progress with the parsed percentage, and a merge line (`[Merger]` or
`Merging`) overwrites it with 95.  After the process exits, the code
inspects the return code, checks the output file once, writes the terminal
status, and performs registration. -/

/-- The percentage parse for one (already stripped) line:
`line.split("%")[0].split()[-1]` fed to `float`, guarded by
`"[download]" in line and "%" in line`; parse failures are swallowed. -/
def parsePercent (line : String) : Option ℚ :=
  if pyContains line "[download]" && pyContains line "%" then
    match (wsSplit (beforeChar '%' line.data)).getLast? with
    | none => none
    | some tok => parseDecimal tok
  else none

/-- Whether a stripped line is a merge/finalize marker. -/
def isMergeLine (line : String) : Bool :=
  pyContains line "[Merger]" || pyContains line "Merging"

/-- Progress writes performed while consuming one raw output line. -/
def progressWritesOfLine (raw : String) : List ℚ :=
  let line := pyStrip raw
  (match parsePercent line with
   | some p => [p]
   | none => []) ++
  (if isMergeLine line then [(95 : ℚ)] else [])

/-- Progress writes performed by the whole subprocess-output loop. -/
def progressWrites (lines : List String) : List ℚ :=
  lines.flatMap progressWritesOfLine

/-- Terminal part of run_ytdlp, after `process.wait()`.  Parameters:
`rc` is the subprocess return code, `present i` the result of the i-th
filesystem existence check of the merged output file (the code performs
such checks by calling `output_path.exists()`), `uid`/`yurl` the user id
and source url stored in the shared job entry, and `regErr` the outcome of
the registration/upload block (`none` = it ran without exception).
Returns the list of status-field writes and the final error field. -/
def finalizeWrites (rc : Int) (present : Nat → Bool) (uid : Option Nat)
    (yurl : Option String) (regErr : Option String) : List String × Option String :=
  if rc = 0 then
    if present 0 then
      match uid with
      | none => (["complete", "error"], some "No user_id found in download info")
      | some _ =>
        match yurl with
        | none => (["complete", "error"], some "No youtube_url found in download info")
        | some _ =>
          match regErr with
          | none => (["complete"], none)
          | some msg => (["complete", "error"], some ("Error registering video: " ++ msg))
    else (["error"], some "Merged file not found after download")
  else (["error"], some ("Download failed with code " ++ toString rc))

/-- Status-field writes observable by a poller over the life of a job:
start_download stores "starting", run_ytdlp overwrites with "downloading"
before launching the tool, and the terminal writes follow. -/
def observedStatuses (rc : Int) (present : Nat → Bool) (uid : Option Nat)
    (yurl : Option String) (regErr : Option String) : List String :=
  "starting" :: "downloading" :: (finalizeWrites rc present uid yurl regErr).1

/-- All progress writes of a run: the loop writes, then 100 on the
successful completion branch (set together with status "complete"). -/
def allProgressWrites (lines : List String) (rc : Int) (present : Nat → Bool) : List ℚ :=
  progressWrites lines ++ (if rc = 0 ∧ present 0 then [(100 : ℚ)] else [])

/-- Title field after the info-fetch phase: `info.get("title", "Unknown")`
when the info subprocess succeeded, otherwise the initial "Fetching..."
is left in place (the code only logs a warning and proceeds). -/
def titleAfterInfoFetch (infoRc : Int) (titleField : Option String) : String :=
  if infoRc = 0 then titleField.getD "Unknown" else "Fetching..."

/-- Rank of a status string in the intended forward order. -/
def statusRank : String → Nat
  | "starting" => 0
  | "downloading" => 1
  | "complete" => 2
  | "error" => 2
  | _ => 3

/-- Whether consecutive writes never decrease in rank. -/
def ranksMonotone : List String → Bool
  | [] => true
  | [_] => true
  | a :: b :: rest => decide (statusRank a ≤ statusRank b) && ranksMonotone (b :: rest)

/-- The writes that come after the first occurrence of `s`. -/
def writesAfter (s : String) : List String → List String
  | [] => []
  | x :: xs => if x == s then xs else writesAfter s xs

/-- Whether a list of rationals is nondecreasing. -/
def nondecreasing : List ℚ → Bool
  | [] => true
  | [_] => true
  | a :: b :: rest => decide (a ≤ b) && nondecreasing (b :: rest)

/-! ### Job table, acquisition request and status poll (server.py) -/

/-- Entry of the in-memory `downloads` table keyed by job id. -/
structure JobRecord where
  status : String
  progress : ℚ
  title : String
  filename : Option String
  error : Option String
  youtube_url : Option String
  user_id : Option Nat
deriving Repr, DecidableEq

/-- Python dict lookup `downloads[video_id]` (ids are uuids, unique keys). -/
def lookupJob (dls : List (String × JobRecord)) (vid : String) : Option JobRecord :=
  (dls.find? (fun p => p.1 == vid)).map (fun p => p.2)

/-- Response of the status poll endpoint: either the 404 body
`Download not found` (a constant carrying no job data) or the job entry. -/
inductive StatusResponse
  | notFound
  | ok (r : JobRecord)
deriving Repr, DecidableEq

/-- server.py get_download_status: 404 when the id is unknown, the same
404 when the entry belongs to a different user, otherwise the entry. -/
def get_download_status (dls : List (String × JobRecord)) (uid : Nat)
    (vid : String) : StatusResponse :=
  match lookupJob dls vid with
  | none => .notFound
  | some r => if r.user_id == some uid then .ok r else .notFound

/-- Character class of the video-id group in the validation regex
`(?:youtube\.com\/watch\?v=|youtu\.be\/)([a-zA-Z0-9_-]{11})`. -/
def ytIdChar (c : Char) : Bool :=
  (c.isAlpha && c.val < 128) || c.isDigit || c == '_' || c == '-'

/-- At least `n` class characters follow. -/
def classRun : Nat → List Char → Bool
  | 0, _ => true
  | _ + 1, [] => false
  | n + 1, c :: cs => ytIdChar c && classRun n cs

/-- Search of the validation regex over the url (re.search): some position
starts with one of the two literal alternatives followed by 11 id
characters. -/
def matchesYtPattern : List Char → Bool
  | [] => false
  | c :: cs =>
    (isPrefixList "youtube.com/watch?v=".data (c :: cs) && classRun 11 ((c :: cs).drop 20)) ||
    (isPrefixList "youtu.be/".data (c :: cs) && classRun 11 ((c :: cs).drop 9)) ||
    matchesYtPattern cs

/-- Python `a or b` fallback used for the library title:
`existing_video["title"] or existing_video["filename"]`. -/
def pyOr (t : Option String) (fb : String) : String :=
  match t with
  | some s => if s == "" then fb else s
  | none => fb

/-- Response of the acquisition request endpoint. -/
inductive DownloadResponse
  | badRequest (msg : String)
  | existingComplete (filename : String) (title : Option String)
  | jobStarted (jobId : String)
deriving Repr, DecidableEq

/-- server.py start_download: validates the url, then either answers the
dedup hit from the registry (attaching to the library if needed, creating
no job) or creates a new job entry and launches the worker.  `present`
is the combined blob/local existence check used by the handler and
`newJobId` the uuid it would generate. -/
def start_download (db : DB) (dls : List (String × JobRecord)) (uid : Nat)
    (url0 : String) (present : String → Bool) (newJobId : String) :
    DownloadResponse × DB × List (String × JobRecord) :=
  if url0 == "" then (.badRequest "No URL provided", db, dls)
  else
    let url := pyStrip url0
    let newJob : JobRecord :=
      ⟨"starting", 0, "Fetching...", none, none, some url, some uid⟩
    let started :=
      (DownloadResponse.jobStarted newJobId, db, dls ++ [(newJobId, newJob)])
    if isPrefixList "[".data url.data || pyContains url "ERROR:" ||
        pyContains url "WARNING:" then
      (.badRequest "Invalid URL provided. Please enter a valid YouTube URL.", db, dls)
    else if !(pyContains url "youtube.com" || pyContains url "youtu.be") then
      (.badRequest "Please provide a YouTube URL", db, dls)
    else if !(matchesYtPattern url.data) then
      (.badRequest "Invalid YouTube URL format", db, dls)
    else
      match get_video_by_youtube_url db url with
      | some v =>
        if present v.filename then
          let db' :=
            if libraryHasFilename db uid v.filename then db
            else add_video_to_library db uid v.id ⟨pyOr v.title v.filename, url⟩
          (.existingComplete v.filename v.title, db', dls)
        else started
      | none => started

/-! ### Blob-store boundary (r2_storage.py) and the delete endpoint -/

/-- Outcome reported by the object store for one delete_object call. -/
inductive R2DeleteOutcome
  | deleted
  | clientError (code : String)
  | otherError (msg : String)
deriving Repr, DecidableEq

/-- r2_storage.py delete_from_r2: False when R2 is not configured; True on
a successful delete; True when the store reports the NoSuchKey client
error (the already-deleted case); False on any other failure. -/
def delete_from_r2 (r2Enabled : Bool) (outcome : R2DeleteOutcome) : Bool :=
  if r2Enabled then
    match outcome with
    | .deleted => true
    | .clientError code => if code == "NoSuchKey" then true else false
    | .otherError _ => false
  else false

/-- Collaborator model of the object store at the boundary the handler
assumes: deleting a present key removes it, deleting an absent key is
reported as the NoSuchKey client error. -/
def storeDelete (keys : List String) (k : String) : R2DeleteOutcome × List String :=
  if keys.any (fun x => x == k) then
    (.deleted, keys.filter (fun x => !(x == k)))
  else (.clientError "NoSuchKey", keys)

/-- Python filename.split(".")[0], the stem used to glob related files. -/
def baseId (fn : String) : String :=
  ⟨beforeChar '.' fn.data⟩

/-- Server process state touched by the delete endpoint: the database, the
names present in the local videos directory, and the blob store. -/
structure ServerState where
  db : DB
  localFiles : List String
  r2Enabled : Bool
  r2Files : List String
deriving Repr, DecidableEq

/-- Response of the delete endpoint. -/
inductive DeleteResponse
  | notFoundInLibrary
  | removedFileDeleted (deletedFiles : List String)
  | removedStillUsed (refCount : Nat)
  | removedOnly
deriving Repr, DecidableEq

/-- server.py delete_video: detaches via remove_video_from_library; 404 if
nothing was removed; then, if the video row exists and its reference count
is now zero, deletes the blob (when R2 is enabled), the local file, every
related `stem.*` file, and the `videos` row itself; otherwise leaves the
video in place and reports the remaining reference count. -/
def delete_video (st : ServerState) (uid : Nat) (fn : String) :
    DeleteResponse × ServerState :=
  let rm := remove_video_from_library st.db uid fn
  if rm.1 = false then (.notFoundInLibrary, { st with db := rm.2 })
  else
    match get_video_by_filename rm.2 fn with
    | none => (.removedOnly, { st with db := rm.2 })
    | some v =>
      let rc := get_video_reference_count rm.2 v.id
      if rc = 0 then
        let r2Step :=
          if st.r2Enabled then
            let oc := storeDelete st.r2Files fn
            ((if delete_from_r2 st.r2Enabled oc.1 then [fn ++ " (R2)"] else []), oc.2)
          else ([], st.r2Files)
        let localHad := st.localFiles.any (fun x => x == fn)
        let files1 :=
          if localHad then st.localFiles.filter (fun x => !(x == fn))
          else st.localFiles
        let d2 : List String := if localHad then [fn] else []
        let isRelated := fun (f : String) =>
          !(f == fn) && isPrefixList (baseId fn ++ ".").data f.data
        let related := files1.filter isRelated
        let files2 := files1.filter (fun f => !(isRelated f))
        let db2 := { rm.2 with videos := rm.2.videos.filter (fun w => !(w.id == v.id)) }
        (.removedFileDeleted (r2Step.1 ++ d2 ++ related),
          ⟨db2, files2, st.r2Enabled, r2Step.2⟩)
      else (.removedStillUsed rc, { st with db := rm.2 })

/-! ### Helper lemmas about the registry operations -/

/-- find? by filename returns the member itself when filenames are unique. -/
lemma find?_filename_eq {l : List Video} (hnd : (l.map (fun v => v.filename)).Nodup)
    {v : Video} (hv : v ∈ l) : l.find? (fun w => w.filename == v.filename) = some v := by
  induction l with
  | nil => cases hv
  | cons a l ih =>
    rw [List.map_cons, List.nodup_cons] at hnd
    rcases List.mem_cons.mp hv with h | h
    · subst h
      exact List.find?_cons_of_pos _ (by simp)
    · have hne : (a.filename == v.filename) = false := by
        rw [beq_eq_false_iff_ne]
        intro he
        exact hnd.1 (he ▸ List.mem_map_of_mem (fun w => w.filename) h)
      rw [List.find?_cons, hne]
      exact ih hnd.2 h

/-- Members with equal filenames coincide when filenames are unique. -/
lemma video_eq_of_filename_eq {l : List Video}
    (hnd : (l.map (fun v => v.filename)).Nodup) {v w : Video} (hv : v ∈ l)
    (hw : w ∈ l) (he : v.filename = w.filename) : v = w :=
  List.inj_on_of_nodup_map hnd hv hw he

/-- At most one list member takes any given value under an injective-ready map. -/
lemma length_filter_key_le_one {α β : Type} [BEq β] [LawfulBEq β] (f : α → β)
    {l : List α} (h : (l.map f).Nodup) (b : β) :
    (l.filter (fun a => f a == b)).length ≤ 1 := by
  induction l with
  | nil => simp
  | cons a l ih =>
    rw [List.map_cons, List.nodup_cons] at h
    by_cases hb : f a = b
    · have hrest : l.filter (fun x => f x == b) = [] := by
        rw [List.filter_eq_nil_iff]
        intro x hx hfx
        rw [beq_iff_eq] at hfx
        exact h.1 (by rw [hb, ← hfx]; exact List.mem_map_of_mem f hx)
      simp [List.filter_cons, hb, hrest]
    · simpa [List.filter_cons, hb] using ih h.2

/-- Rows only accumulate under create_video. -/
lemma mem_create_video {db : DB} {v : Video} (hv : v ∈ db.videos)
    (fn : String) (y t : Option String) (s : Option Nat) :
    v ∈ (create_video db fn y t s).2.videos := by
  unfold create_video
  by_cases h : db.videos.any (fun w => w.filename == fn) = true
  · rw [if_pos h]
    cases hfind : get_video_by_filename db fn <;> simpa using hv
  · rw [if_neg h]
    exact List.mem_append_left _ hv

/-- create_video preserves well-formedness of the videos table. -/
lemma wfv_create_video {db : DB} (h : WFv db) (fn : String) (y t : Option String)
    (s : Option Nat) : WFv (create_video db fn y t s).2 := by
  obtain ⟨hid, hfn, hlt⟩ := h
  unfold create_video
  by_cases hany : db.videos.any (fun w => w.filename == fn) = true
  · rw [if_pos hany]
    cases hfind : get_video_by_filename db fn <;> exact ⟨hid, hfn, hlt⟩
  · rw [if_neg hany]
    refine ⟨?_, ?_, ?_⟩
    · rw [List.map_append, List.nodup_append]
      refine ⟨hid, by simp, ?_⟩
      simp only [List.map_cons, List.map_nil, List.disjoint_singleton, List.mem_map,
        not_exists, not_and]
      intro w hw he
      exact absurd (he ▸ hlt w hw) (lt_irrefl _)
    · rw [List.map_append, List.nodup_append]
      refine ⟨hfn, by simp, ?_⟩
      simp only [List.map_cons, List.map_nil, List.disjoint_singleton, List.mem_map,
        not_exists, not_and]
      intro w hw he
      rw [List.any_eq_true] at hany
      exact hany ⟨w, hw, by simp [he]⟩
    · intro v hv
      rcases List.mem_append.mp hv with h | h
      · exact Nat.lt_succ_of_lt (hlt v h)
      · simp only [List.mem_singleton] at h
        subst h
        exact Nat.lt_succ_self _
/-- Registering an already-present storage key errors on the insert, and the
except branch returns the existing row id without touching the table. -/
lemma create_video_existing {db : DB} (h : WFv db) {v : Video} (hv : v ∈ db.videos)
    (y t : Option String) (s : Option Nat) :
    create_video db v.filename y t s = (some v.id, db) := by
  have hany : db.videos.any (fun w => w.filename == v.filename) = true :=
    List.any_eq_true.mpr ⟨v, hv, by simp⟩
  unfold create_video
  rw [if_pos hany]
  unfold get_video_by_filename
  rw [find?_filename_eq h.2.1 hv]

/-- create_video returns some id of a row carrying the requested filename. -/
lemma create_video_result (db : DB) (h : WFv db) (fn : String) (y t : Option String)
    (s : Option Nat) :
    ∃ v : Video, v ∈ (create_video db fn y t s).2.videos ∧ v.filename = fn ∧
      (create_video db fn y t s).1 = some v.id := by
  unfold create_video
  by_cases hany : db.videos.any (fun w => w.filename == fn) = true
  · rw [if_pos hany]
    rw [List.any_eq_true] at hany
    obtain ⟨w, hw, hwfn⟩ := hany
    rw [beq_iff_eq] at hwfn
    have hfind : get_video_by_filename db fn = some w := by
      unfold get_video_by_filename
      rw [← hwfn]
      exact find?_filename_eq h.2.1 hw
    rw [hfind]
    exact ⟨w, hw, hwfn, rfl⟩
  · rw [if_neg hany]
    exact ⟨⟨db.nextVideoId, fn, y, t, s⟩, List.mem_append_right _ (by simp), rfl, rfl⟩

/-- A sequence of register calls, applied in order. -/
def runRegisters (db : DB) :
    List (String × Option String × Option String × Option Nat) → DB
  | [] => db
  | r :: rs => runRegisters (create_video db r.1 r.2.1 r.2.2.1 r.2.2.2).2 rs

/-- Rows persist through any register sequence. -/
lemma mem_runRegisters {db : DB} {v : Video} (hv : v ∈ db.videos)
    (rs : List (String × Option String × Option String × Option Nat)) :
    v ∈ (runRegisters db rs).videos := by
  induction rs generalizing db with
  | nil => exact hv
  | cons r rs ih => exact ih (mem_create_video hv _ _ _ _)

/-- Well-formedness persists through any register sequence. -/
lemma wfv_runRegisters {db : DB} (h : WFv db)
    (rs : List (String × Option String × Option String × Option Nat)) :
    WFv (runRegisters db rs) := by
  induction rs generalizing db with
  | nil => exact h
  | cons r rs ih => exact ih (wfv_create_video h _ _ _ _)

/-- add_video_to_library leaves the videos table and its key untouched. -/
lemma videos_add_video_to_library (db : DB) (uid vid : Nat) (md : Metadata) :
    (add_video_to_library db uid vid md).videos = db.videos ∧
    (add_video_to_library db uid vid md).nextVideoId = db.nextVideoId := by
  unfold add_video_to_library
  by_cases h : db.library.any (fun l => l.user_id == uid && l.video_id == vid) = true <;>
    simp [h]

/-- remove_video_from_library leaves the videos table and its key untouched. -/
lemma videos_remove_video_from_library (db : DB) (uid : Nat) (fn : String) :
    (remove_video_from_library db uid fn).2.videos = db.videos ∧
    (remove_video_from_library db uid fn).2.nextVideoId = db.nextVideoId := by
  unfold remove_video_from_library
  cases h : db.videos.find? (fun v => v.filename == fn) <;> simp

/-- Every reachable database has a well-formed videos table. -/
lemma wfv_of_reachable {db : DB} (h : Reachable db) : WFv db := by
  induction h with
  | init => exact ⟨List.nodup_nil, List.nodup_nil, by intro v hv; cases hv⟩
  | register db fn y t s _ ih => exact wfv_create_video ih fn y t s
  | attach db uid v md _ _ ih =>
    obtain ⟨h1, h2⟩ := videos_add_video_to_library db uid v.id md
    exact ⟨h1 ▸ ih.1, h1 ▸ ih.2.1, by rw [h1, h2]; exact ih.2.2⟩
  | detach db uid fn _ ih =>
    obtain ⟨h1, h2⟩ := videos_remove_video_from_library db uid fn
    exact ⟨h1 ▸ ih.1, h1 ▸ ih.2.1, by rw [h1, h2]; exact ih.2.2⟩

/-! ### Helper lemmas about the garbage collector -/

/-- The per-id delete loop amounts to filtering out the listed ids. -/
lemma deleteVideosById_eq_filter (vs : List Video) (ids : List Nat) :
    deleteVideosById vs ids = vs.filter (fun v => !(ids.any (fun i => v.id == i))) := by
  induction ids generalizing vs with
  | nil => simp [deleteVideosById]
  | cons i ids ih =>
    show deleteVideosById (vs.filter (fun v => !(v.id == i))) ids = _
    rw [ih, List.filter_filter]
    refine List.filter_congr ?_
    intro v _
    simp only [List.any_cons, Bool.not_or, Bool.and_comm]

/-- A zero reference count is the same as having no library row. -/
lemma refcount_zero_iff_not_any (db : DB) (vid : Nat) :
    get_video_reference_count db vid = 0 ↔
      db.library.any (fun l => l.video_id == vid) = false := by
  unfold get_video_reference_count
  rw [List.length_eq_zero, List.filter_eq_nil_iff, List.any_eq_false]

/-! ### Claims C1, C2, C3 -/

/-- Database after registering filename a.mp4 for source identity u. -/
def dbA : DB := (create_video DB.empty "a.mp4" (some "u") none none).2

/-- Database after further registering filename b.mp4 for the same source
identity u (as happens when two jobs for one url pick distinct uuid-based
output names). -/
def dbAB : DB := (create_video dbA "b.mp4" (some "u") none none).2

/-- C1 (counterexample): two register calls carrying the same non-null
source identity u but different storage keys leave TWO videos rows with
youtube_url = u, and the two callers observe different asset ids — the
schema puts the UNIQUE constraint on filename only, not on youtube_url,
so the claimed per-source-identity uniqueness fails. -/
theorem register_same_source_identity_two_rows :
    (create_video DB.empty "a.mp4" (some "u") none none).1 = some 1 ∧
    (create_video dbA "b.mp4" (some "u") none none).1 = some 2 ∧
    (dbAB.videos.filter (fun v => v.youtube_url == some "u")).length = 2 := by
  refine ⟨by decide, by decide, by decide⟩

/-- C1 (amended): uniqueness and agreement hold per storage key
(filename), not per source identity: after a first register of `fn` and
any further sequence of register calls, exactly one videos row with
filename `fn` exists, every filename occurs on at most one row, and a
later register of `fn` observes the same id as the first. -/
theorem register_unique_per_storage_key (db : DB) (h : WFv db) (fn : String)
    (y t : Option String) (s : Option Nat)
    (rs : List (String × Option String × Option String × Option Nat))
    (y' t' : Option String) (s' : Option Nat) :
    (create_video (runRegisters (create_video db fn y t s).2 rs) fn y' t' s').1
      = (create_video db fn y t s).1
    ∧ ((runRegisters (create_video db fn y t s).2 rs).videos.filter
        (fun v => v.filename == fn)).length = 1
    ∧ ∀ g, ((runRegisters (create_video db fn y t s).2 rs).videos.filter
        (fun v => v.filename == g)).length ≤ 1 := by
  obtain ⟨v, hv, hvfn, hres⟩ := create_video_result db h fn y t s
  have hwf1 : WFv (create_video db fn y t s).2 := wfv_create_video h fn y t s
  have hwf2 : WFv (runRegisters (create_video db fn y t s).2 rs) :=
    wfv_runRegisters hwf1 rs
  have hmem : v ∈ (runRegisters (create_video db fn y t s).2 rs).videos :=
    mem_runRegisters hv rs
  refine ⟨?_, ?_, ?_⟩
  · have he := create_video_existing hwf2 hmem y' t' s'
    rw [hvfn] at he
    rw [hres, he]
  · have hle := length_filter_key_le_one (fun v : Video => v.filename) hwf2.2.1 fn
    have hmf : v ∈ (runRegisters (create_video db fn y t s).2 rs).videos.filter
        (fun w => w.filename == fn) :=
      List.mem_filter.mpr ⟨hmem, by simp [hvfn]⟩
    have hge := List.length_pos.mpr (List.ne_nil_of_mem hmf)
    omega
  · intro g
    exact length_filter_key_le_one (fun v : Video => v.filename) hwf2.2.1 g

/-- Witness for C1 (amended) at a concrete register sequence. -/
theorem register_unique_per_storage_key_witness :
    (create_video (runRegisters (create_video DB.empty "a.mp4" (some "u") none none).2
        [("b.mp4", some "u", none, none)]) "a.mp4" (some "u2") none none).1
      = (create_video DB.empty "a.mp4" (some "u") none none).1 :=
  (register_unique_per_storage_key DB.empty (by decide) "a.mp4" (some "u") none none
    [("b.mp4", some "u", none, none)] (some "u2") none none).1

/-- C2 (confirmed): when a row with the given storage key already exists,
create_video does not error — the failed insert falls into the except
branch, which returns the id of the existing row and leaves the database
unchanged. -/
theorem register_idempotent_on_storage_key (db : DB) (h : WFv db) (v : Video)
    (hv : v ∈ db.videos) (y t : Option String) (s : Option Nat) :
    (create_video db v.filename y t s).1 = some v.id ∧
    (create_video db v.filename y t s).2 = db := by
  have he := create_video_existing h hv y t s
  exact ⟨by rw [he], by rw [he]⟩

/-- A one-row registry used as concrete input. -/
def dbOne : DB := ⟨[⟨1, "a.mp4", some "u", none, none⟩], [], 2, 1⟩

/-- Witness for C2 at a concrete database. -/
theorem register_idempotent_on_storage_key_witness :
    (create_video dbOne "a.mp4" (some "u2") (some "T") (some 5)).1 = some 1 ∧
    (create_video dbOne "a.mp4" (some "u2") (some "T") (some 5)).2 = dbOne :=
  register_idempotent_on_storage_key dbOne (by decide)
    ⟨1, "a.mp4", some "u", none, none⟩ (by decide) (some "u2") (some "T") (some 5)

/-- Pointwise bridge between the LEFT JOIN orphan test of the source and
the reference count of the spec. -/
lemma refcount_beq_zero_eq_not_any (db : DB) (v : Video) :
    (get_video_reference_count db v.id == 0) =
      !(db.library.any (fun l => l.video_id == v.id)) := by
  by_cases hP : db.library.any (fun l => l.video_id == v.id) = true
  · rw [hP]
    simp only [Bool.not_true, beq_eq_false_iff_ne]
    intro h0
    rw [refcount_zero_iff_not_any] at h0
    rw [h0] at hP
    cases hP
  · have hPf := eq_false_of_ne_true hP
    rw [hPf]
    simp only [Bool.not_false, beq_iff_eq]
    exact (refcount_zero_iff_not_any db v.id).mpr hPf

/-- The id of a row belongs to the orphan id list exactly when the row has
no library reference. -/
lemma orphanIds_any_eq (db : DB) (v : Video) (hv : v ∈ db.videos) :
    ((db.videos.filter (fun w => !(db.library.any (fun l => l.video_id == w.id)))).map
      (fun w => w.id)).any (fun i => v.id == i)
    = !(db.library.any (fun l => l.video_id == v.id)) := by
  cases hb : db.library.any (fun l => l.video_id == v.id) with
  | false =>
    simp only [Bool.not_false]
    refine List.any_eq_true.mpr ⟨v.id, ?_, ?_⟩
    · refine List.mem_map_of_mem (fun w : Video => w.id) ?_
      refine List.mem_filter.mpr ⟨hv, ?_⟩
      show (!(db.library.any (fun l => l.video_id == v.id))) = true
      rw [hb]
      rfl
    · show (v.id == v.id) = true
      exact beq_self_eq_true v.id
  | true =>
    simp only [Bool.not_true]
    rw [← Bool.not_eq_true]
    intro hany
    obtain ⟨i, hi, hvi⟩ := List.any_eq_true.mp hany
    obtain ⟨w, hwmem, hwid⟩ := List.mem_map.mp hi
    obtain ⟨_, hworph⟩ := List.mem_filter.mp hwmem
    rw [beq_iff_eq] at hvi
    obtain ⟨l, hl, hlv⟩ := List.any_eq_true.mp hb
    rw [beq_iff_eq] at hlv
    have hPw : db.library.any (fun l' => l'.video_id == w.id) = true :=
      List.any_eq_true.mpr ⟨l, hl, by
        show (l.video_id == w.id) = true
        rw [beq_iff_eq, hlv, hvi, hwid]⟩
    rw [hPw] at hworph
    cases hworph

/-- C3 (confirmed): on every database reachable by attach/detach/register
sequences, the sweep returns exactly the storage keys of the assets whose
reference count is zero, never a key still referenced by any library row,
deletes exactly those registry rows, and leaves the library table alone. -/
theorem sweep_exactly_orphans (db : DB) (h : Reachable db) :
    (cleanup_orphaned_videos db).1 =
      (db.videos.filter (fun v => get_video_reference_count db v.id == 0)).map
        (fun v => v.filename)
    ∧ (∀ fn ∈ (cleanup_orphaned_videos db).1, ∀ l ∈ db.library, ∀ v ∈ db.videos,
        l.video_id = v.id → v.filename ≠ fn)
    ∧ (cleanup_orphaned_videos db).2.videos =
        db.videos.filter (fun v => !(get_video_reference_count db v.id == 0))
    ∧ (cleanup_orphaned_videos db).2.library = db.library := by
  have hwf := wfv_of_reachable h
  have hfe : db.videos.filter (fun v => !(db.library.any (fun l => l.video_id == v.id)))
      = db.videos.filter (fun v => get_video_reference_count db v.id == 0) :=
    List.filter_congr (fun v _ => (refcount_beq_zero_eq_not_any db v).symm)
  refine ⟨?_, ?_, ?_, rfl⟩
  · simp only [cleanup_orphaned_videos]
    rw [hfe]
  · intro fn hfn l hl v hv hlv hvfn
    obtain ⟨w, hw, hwfn⟩ := List.mem_map.mp hfn
    obtain ⟨hwmem, hworph⟩ := List.mem_filter.mp hw
    have hvw : v = w :=
      video_eq_of_filename_eq hwf.2.1 hv hwmem (by rw [hvfn, hwfn])
    have : db.library.any (fun l' => l'.video_id == w.id) = true :=
      List.any_eq_true.mpr ⟨l, hl, by rw [beq_iff_eq, hlv, hvw]⟩
    rw [this] at hworph
    cases hworph
  · simp only [cleanup_orphaned_videos]
    rw [deleteVideosById_eq_filter]
    refine List.filter_congr ?_
    intro v hv
    rw [orphanIds_any_eq db v hv, Bool.not_not, refcount_beq_zero_eq_not_any db v,
      Bool.not_not]

/-- Concrete reachable database: one registered video, attached once by
user 7, then detached again. -/
def dbReach : DB :=
  (remove_video_from_library
    (add_video_to_library dbA 7 (1 : Nat) ⟨"t", "u"⟩) 7 "a.mp4").2

/-- Reachability certificate for dbReach. -/
lemma dbReach_reachable : Reachable dbReach :=
  Reachable.detach _ 7 "a.mp4"
    (Reachable.attach dbA 7 ⟨1, "a.mp4", some "u", none, none⟩ ⟨"t", "u"⟩
      (Reachable.register DB.empty "a.mp4" (some "u") none none Reachable.init)
      (by decide))

/-- Witness for C3 at the concrete reachable database. -/
theorem sweep_exactly_orphans_witness :
    (cleanup_orphaned_videos dbReach).1 =
      (dbReach.videos.filter
        (fun v => get_video_reference_count dbReach v.id == 0)).map
        (fun v => v.filename)
    ∧ (cleanup_orphaned_videos dbReach).2.library = dbReach.library :=
  ⟨(sweep_exactly_orphans dbReach dbReach_reachable).1,
   (sweep_exactly_orphans dbReach dbReach_reachable).2.2.2⟩

/-! ### Claim C4 -/

/-- Server state with one video attached only by user 1: the detach through
the endpoint drops the reference count to zero. -/
def stOne : ServerState :=
  ⟨⟨[⟨1, "a.mp4", some "u", some "t", some 10⟩], [⟨1, 1, 1, ⟨"t", "u"⟩⟩], 2, 2⟩,
   ["a.mp4"], false, []⟩

/-- C4 (counterexample): the tenant-facing delete endpoint does NOT leave
the Asset in place — when the detach drops the reference count to zero it
deletes the backing file and the videos row itself, instead of leaving
the zero-reference asset to the garbage collector. -/
theorem delete_endpoint_deletes_asset :
    stOne.db.videos ≠ []
    ∧ (delete_video stOne 1 "a.mp4").2.db.videos = []
    ∧ (delete_video stOne 1 "a.mp4").2.localFiles = [] := by
  refine ⟨by decide, by decide, by decide⟩

/-- C4 (amended): the detach operation itself (remove_video_from_library)
never deletes the Asset row; the delete endpoint leaves the Asset row
untouched unless the detach dropped its reference count to zero, in which
case the endpoint itself deletes exactly that row and its backing file. -/
theorem detach_never_deletes_asset_amended :
    (∀ (db : DB) (uid : Nat) (fn : String),
      (remove_video_from_library db uid fn).2.videos = db.videos)
    ∧ (∀ (st : ServerState) (uid : Nat) (fn : String),
        (delete_video st uid fn).2.db.videos = st.db.videos ∨
        (∃ v ∈ st.db.videos, v.filename = fn ∧
          get_video_reference_count (remove_video_from_library st.db uid fn).2 v.id = 0 ∧
          (delete_video st uid fn).2.db.videos
            = st.db.videos.filter (fun w => !(w.id == v.id)) ∧
          fn ∉ (delete_video st uid fn).2.localFiles)) := by
  constructor
  · intro db uid fn
    exact (videos_remove_video_from_library db uid fn).1
  · intro st uid fn
    have hvid := (videos_remove_video_from_library st.db uid fn).1
    unfold delete_video
    dsimp only
    split
    · left
      exact hvid
    · split
      · left
        exact hvid
      · rename_i v hfind
        split
        · rename_i hrc
          right
          refine ⟨v, ?_, ?_, hrc, ?_, ?_⟩
          · exact hvid ▸ List.mem_of_find?_eq_some hfind
          · have hp := List.find?_some hfind
            rwa [beq_iff_eq] at hp
          · show (remove_video_from_library st.db uid fn).2.videos.filter _ = _
            rw [hvid]
          · intro hmem
            have hmem1 := (List.mem_filter.mp hmem).1
            by_cases hl : st.localFiles.any (fun x => x == fn) = true
            · rw [if_pos hl] at hmem1
              exact absurd (List.mem_filter.mp hmem1).2 (by simp)
            · rw [if_neg hl] at hmem1
              exact absurd (show (st.localFiles.any fun x => x == fn) = true from
                List.any_eq_true.mpr ⟨fn, hmem1, beq_self_eq_true fn⟩) hl
        · left
          exact hvid

/-! ### Claims C5 and C7 (job state machine of run_ytdlp) -/

/-- C5 (counterexample): a run whose tool exits 0 with the artifact present
but whose stored job entry lacks a user id writes "complete" and then
"error" — a poller can observe the state regress out of COMPLETE, because
the code marks the job complete before attempting registration. -/
theorem job_status_regression_after_complete :
    observedStatuses 0 (fun _ => true) none (some "u") none
      = ["starting", "downloading", "complete", "error"]
    ∧ writesAfter "complete" (observedStatuses 0 (fun _ => true) none (some "u") none)
      = ["error"] :=
  ⟨rfl, rfl⟩

/-- C5 (amended): the status writes move forward through
starting, downloading, then a terminal phase; "error" is final; the only
write ever following "complete" is the single "error" caused by a failed
post-download registration (missing user id, missing source url, or a
registration exception), and exactly in that case. -/
theorem job_status_forward_except_registration (rc : Int) (present : Nat → Bool)
    (uid : Option Nat) (yurl : Option String) (regErr : Option String) :
    ranksMonotone (observedStatuses rc present uid yurl regErr) = true
    ∧ writesAfter "error" (observedStatuses rc present uid yurl regErr) = []
    ∧ (writesAfter "complete" (observedStatuses rc present uid yurl regErr) = [] ∨
       writesAfter "complete" (observedStatuses rc present uid yurl regErr) = ["error"])
    ∧ (writesAfter "complete" (observedStatuses rc present uid yurl regErr) = ["error"] ↔
        (rc = 0 ∧ present 0 = true ∧ ¬(uid ≠ none ∧ yurl ≠ none ∧ regErr = none))) := by
  unfold observedStatuses finalizeWrites
  by_cases hrc : rc = 0
  · subst hrc
    rw [if_pos rfl]
    cases hp : present 0 <;> rcases uid with _ | u <;> rcases yurl with _ | yu <;>
      rcases regErr with _ | msg <;>
      simp [hp, writesAfter, ranksMonotone, statusRank]
  · rw [if_neg hrc]
    refine ⟨?_, ?_, Or.inl ?_, ?_⟩
    · simp [ranksMonotone, statusRank]
    · simp [writesAfter]
    · simp [writesAfter]
    · constructor
      · intro hco
        simp [writesAfter] at hco
      · rintro ⟨h0, -⟩
        exact absurd h0 hrc

/-- C7 (counterexample): tool exit 0 with the artifact absent at the single
check the code performs, but present from the first re-check on.  The
claim predicts one re-check (which would find the artifact) before any
failure; the code instead fails immediately with the distinct message. -/
theorem artifact_present_on_recheck_still_fails :
    finalizeWrites 0 (fun n => decide (1 ≤ n)) (some 1) (some "u") none
      = (["error"], some "Merged file not found after download") := rfl

/-- C7 (amended): when the tool reports success (exit 0) but the artifact
is absent, the job moves immediately to the error state carrying the
distinct message, with no re-check: the outcome depends only on the first
existence check. -/
theorem artifact_missing_fails_without_recheck (p q : Nat → Bool)
    (uid : Option Nat) (yurl : Option String) (regErr : Option String)
    (h0 : p 0 = false) (hq : q 0 = p 0) :
    finalizeWrites 0 p uid yurl regErr
      = (["error"], some "Merged file not found after download")
    ∧ finalizeWrites 0 q uid yurl regErr = finalizeWrites 0 p uid yurl regErr := by
  have hq0 : q 0 = false := by rw [hq, h0]
  simp [finalizeWrites, h0, hq0]

/-- Witness for C7 (amended) at concrete check sequences. -/
theorem artifact_missing_fails_without_recheck_witness :
    finalizeWrites 0 (fun _ => false) (some 1) (some "u") none
      = (["error"], some "Merged file not found after download") :=
  (artifact_missing_fails_without_recheck (fun _ => false) (fun n => decide (1 ≤ n))
    (some 1) (some "u") none rfl rfl).1

/-! ### Claim C8 (progress stream) -/

/-- The observable outcome of one whole run of run_ytdlp: status writes,
progress writes, final title, final error. -/
def runResult (infoRc : Int) (infoTitle : Option String) (lines : List String)
    (rc : Int) (present : Nat → Bool) (uid : Option Nat) (yurl : Option String)
    (regErr : Option String) : List String × List ℚ × String × Option String :=
  (observedStatuses rc present uid yurl regErr,
   allProgressWrites lines rc present,
   titleAfterInfoFetch infoRc infoTitle,
   (finalizeWrites rc present uid yurl regErr).2)

/-- C8 (counterexample): the progress written to the shared job entry is
the last parsed percentage, unclamped and not forced monotone: the tool
output lines 150.0 percent then 10.0 percent produce the write sequence
150, 10, 100 — both above 100 and decreasing. -/
theorem progress_not_monotone_not_clamped :
    allProgressWrites ["[download] 150% of x", "[download] 10% of x"] 0
        (fun _ => true) = [150, 10, 100]
    ∧ nondecreasing (allProgressWrites ["[download] 150% of x", "[download] 10% of x"]
        0 (fun _ => true)) = false
    ∧ (allProgressWrites ["[download] 150% of x", "[download] 10% of x"] 0
        (fun _ => true)).all (fun p => decide (p ≤ 100)) = false := by
  refine ⟨by decide, by decide, by decide⟩

/-- C8 (amended): every progress write is either the percentage parsed
from some output line (last write wins, with no monotonicity or range
enforcement) or the fixed 95 of a merge/finalize line; merge lines always
write 95; successful completion writes 100 last; and the parsed title has
no effect on the status writes or the final error (absence is not
fatal). -/
theorem progress_last_write_wins :
    (∀ (lines : List String) (p : ℚ), p ∈ progressWrites lines →
      (∃ raw ∈ lines, parsePercent (pyStrip raw) = some p) ∨
      (p = 95 ∧ ∃ raw ∈ lines, isMergeLine (pyStrip raw) = true))
    ∧ (∀ raw : String, isMergeLine (pyStrip raw) = true →
        (95 : ℚ) ∈ progressWritesOfLine raw)
    ∧ (∀ (lines : List String) (present : Nat → Bool), present 0 = true →
        (allProgressWrites lines 0 present).getLast? = some 100)
    ∧ (∀ (i₁ i₂ rc : Int) (t₁ t₂ : Option String) (present : Nat → Bool)
        (uid : Option Nat) (yurl : Option String) (regErr : Option String)
        (lines : List String),
        (runResult i₁ t₁ lines rc present uid yurl regErr).1
          = (runResult i₂ t₂ lines rc present uid yurl regErr).1
        ∧ (runResult i₁ t₁ lines rc present uid yurl regErr).2.2.2
          = (runResult i₂ t₂ lines rc present uid yurl regErr).2.2.2) := by
  refine ⟨?_, ?_, ?_, ?_⟩
  · intro lines p hp
    obtain ⟨raw, hraw, hmem⟩ := List.mem_flatMap.mp hp
    unfold progressWritesOfLine at hmem
    rcases List.mem_append.mp hmem with h | h
    · cases hpp : parsePercent (pyStrip raw) with
      | none => rw [hpp] at h; cases h
      | some x =>
        rw [hpp] at h
        simp only [List.mem_singleton] at h
        exact Or.inl ⟨raw, hraw, by rw [hpp, h]⟩
    · cases him : isMergeLine (pyStrip raw) with
      | false => rw [him] at h; simp at h
      | true =>
        rw [him] at h
        simp only [if_true, List.mem_singleton] at h
        exact Or.inr ⟨h, raw, hraw, him⟩
  · intro raw him
    unfold progressWritesOfLine
    dsimp only
    rw [him]
    exact List.mem_append_right _ (by simp)
  · intro lines present hpres
    unfold allProgressWrites
    rw [if_pos ⟨rfl, hpres⟩]
    exact List.getLast?_concat _
  · intro i₁ i₂ rc t₁ t₂ present uid yurl regErr lines
    exact ⟨rfl, rfl⟩

/-- Witness for C8 (amended) at a concrete progress line. -/
theorem progress_last_write_wins_witness :
    (∃ raw ∈ (["[download]  45% of 10MiB"] : List String),
      parsePercent (pyStrip raw) = some (45 : ℚ)) ∨
    ((45 : ℚ) = 95 ∧ ∃ raw ∈ (["[download]  45% of 10MiB"] : List String),
      isMergeLine (pyStrip raw) = true) :=
  progress_last_write_wins.1 ["[download]  45% of 10MiB"] (45 : ℚ) (by decide)

/-! ### Claim C6 (dedup hit) -/

/-- C6 (confirmed): when the requested source identity is already
registered and its backing bytes are present, start_download answers the
request immediately with the existing entry, creates no job (the downloads
table is unchanged), and a library row for the requesting tenant and that
asset exists afterwards. -/
theorem dedup_hit_attaches_without_job (db : DB) (h : WFv db)
    (dls : List (String × JobRecord)) (uid : Nat) (url0 : String)
    (present : String → Bool) (newJobId : String) (v : Video)
    (h0 : (url0 == "") = false)
    (hvalid1 : (isPrefixList "[".data (pyStrip url0).data ||
        pyContains (pyStrip url0) "ERROR:" ||
        pyContains (pyStrip url0) "WARNING:") = false)
    (hvalid2 : (pyContains (pyStrip url0) "youtube.com" ||
        pyContains (pyStrip url0) "youtu.be") = true)
    (hvalid3 : matchesYtPattern (pyStrip url0).data = true)
    (hfind : get_video_by_youtube_url db (pyStrip url0) = some v)
    (hpres : present v.filename = true) :
    (start_download db dls uid url0 present newJobId).1
      = DownloadResponse.existingComplete v.filename v.title
    ∧ (start_download db dls uid url0 present newJobId).2.2 = dls
    ∧ ∃ l ∈ (start_download db dls uid url0 present newJobId).2.1.library,
        l.user_id = uid ∧ l.video_id = v.id := by
  have hv : v ∈ db.videos := List.mem_of_find?_eq_some hfind
  have hred : ∀ x : DownloadResponse × DB × List (String × JobRecord),
      x = start_download db dls uid url0 present newJobId →
      x = (DownloadResponse.existingComplete v.filename v.title,
        (if libraryHasFilename db uid v.filename then db
         else add_video_to_library db uid v.id
           ⟨pyOr v.title v.filename, pyStrip url0⟩), dls) := by
    intro x hx
    rw [hx]
    unfold start_download
    rw [h0]
    dsimp only
    rw [hvalid1, hvalid2, hvalid3, hfind]
    dsimp only
    rw [hpres]
    rfl
  have hmain := hred _ rfl
  rw [hmain]
  refine ⟨rfl, rfl, ?_⟩
  dsimp only
  by_cases hlib : libraryHasFilename db uid v.filename = true
  · rw [if_pos hlib]
    unfold libraryHasFilename at hlib
    obtain ⟨pr, hpr, hfst⟩ := List.any_eq_true.mp hlib
    unfold get_user_library at hpr
    obtain ⟨l, hlf, hpl⟩ := List.mem_flatMap.mp hpr
    obtain ⟨hl, hluser⟩ := List.mem_filter.mp hlf
    obtain ⟨w, hwf, hweq⟩ := List.mem_map.mp hpl
    obtain ⟨hwmem, hwid⟩ := List.mem_filter.mp hwf
    rw [beq_iff_eq] at hluser hwid
    rw [beq_iff_eq] at hfst
    have hwfil : w.filename = v.filename := by rw [← hfst, ← hweq]
    have hwv : w = v := video_eq_of_filename_eq h.2.1 hwmem hv hwfil
    exact ⟨l, hl, hluser, by rw [← hwid, hwv]⟩
  · rw [if_neg hlib]
    have hpair : db.library.any (fun l => l.user_id == uid && l.video_id == v.id)
        = false := by
      rw [← Bool.not_eq_true]
      intro hx
      obtain ⟨l, hl, hcond⟩ := List.any_eq_true.mp hx
      rw [Bool.and_eq_true, beq_iff_eq, beq_iff_eq] at hcond
      refine hlib ?_
      unfold libraryHasFilename get_user_library
      refine List.any_eq_true.mpr ⟨(v.filename, l.metadata), ?_, beq_self_eq_true _⟩
      refine List.mem_flatMap.mpr ⟨l, List.mem_filter.mpr ⟨hl, by simp [hcond.1]⟩, ?_⟩
      refine List.mem_map.mpr ⟨v, List.mem_filter.mpr ⟨hv, ?_⟩, rfl⟩
      show (v.id == l.video_id) = true
      rw [beq_iff_eq]
      exact hcond.2.symm
    unfold add_video_to_library
    rw [hpair]
    exact ⟨⟨db.nextLibraryId, uid, v.id, ⟨pyOr v.title v.filename, pyStrip url0⟩⟩,
      List.mem_append_right _ (by simp), rfl, rfl⟩

/-- Registry holding the already-acquired video for the witness request. -/
def dbYt : DB :=
  ⟨[⟨1, "a.mp4", some "https://youtu.be/abcdefghijk", some "T", none⟩], [], 2, 1⟩

/-- Witness for C6 at a concrete registry, tenant and url. -/
theorem dedup_hit_attaches_without_job_witness :
    (start_download dbYt [] 7 "https://youtu.be/abcdefghijk" (fun _ => true) "j9").2.2
      = ([] : List (String × JobRecord))
    ∧ ∃ l ∈ (start_download dbYt [] 7 "https://youtu.be/abcdefghijk"
        (fun _ => true) "j9").2.1.library, l.user_id = 7 ∧ l.video_id = 1 := by
  have hmain := dedup_hit_attaches_without_job dbYt (by decide) [] 7
    "https://youtu.be/abcdefghijk" (fun _ => true) "j9"
    ⟨1, "a.mp4", some "https://youtu.be/abcdefghijk", some "T", none⟩
    (by decide) (by decide) (by decide) (by decide) (by decide) (by decide)
  exact ⟨hmain.2.1, hmain.2.2⟩

/-! ### Claim C9 (tenant isolation of the status poll) -/

/-- C9 (confirmed): polling a job id owned by a different tenant yields the
not-found response — literally the same constant response an unknown id
yields, so no job data is revealed — while the owner gets the job entry
(status, progress, title, filename, error). -/
theorem status_poll_tenant_isolation (dls : List (String × JobRecord)) (uid : Nat)
    (vid : String) (r : JobRecord) (hlk : lookupJob dls vid = some r) :
    (r.user_id ≠ some uid →
      get_download_status dls uid vid = StatusResponse.notFound ∧
      get_download_status dls uid vid = get_download_status [] uid vid)
    ∧ (r.user_id = some uid →
      get_download_status dls uid vid = StatusResponse.ok r) := by
  unfold get_download_status
  rw [hlk]
  dsimp only
  constructor
  · intro hne
    have hb : (r.user_id == some uid) = false := by
      rw [beq_eq_false_iff_ne]
      exact hne
    rw [hb]
    exact ⟨rfl, rfl⟩
  · intro heq
    have hb : (r.user_id == some uid) = true := by
      rw [beq_iff_eq]
      exact heq
    rw [hb]
    rfl

/-- Job table with one entry owned by tenant 7. -/
def exJobs : List (String × JobRecord) :=
  [("j1", ⟨"downloading", 42, "T", none, none, some "u", some 7⟩)]

/-- Witness for C9: tenant 5 gets not-found for the job of tenant 7, who
receives the entry. -/
theorem status_poll_tenant_isolation_witness :
    get_download_status exJobs 5 "j1" = StatusResponse.notFound
    ∧ get_download_status exJobs 7 "j1"
      = StatusResponse.ok ⟨"downloading", 42, "T", none, none, some "u", some 7⟩ :=
  ⟨((status_poll_tenant_isolation exJobs 5 "j1"
      ⟨"downloading", 42, "T", none, none, some "u", some 7⟩ (by decide)).1
      (by decide)).1,
   (status_poll_tenant_isolation exJobs 7 "j1"
      ⟨"downloading", 42, "T", none, none, some "u", some 7⟩ (by decide)).2 rfl⟩

/-! ### Claim C10 (blob-store delete idempotence) -/

/-- C10 (confirmed): with R2 configured, deleting an absent key succeeds —
the NoSuchKey report maps to True — and deleting the same key twice
succeeds both times, the second delete hitting exactly the NoSuchKey
branch. -/
theorem delete_from_r2_absent_is_success (keys : List String) (k : String) :
    delete_from_r2 true (R2DeleteOutcome.clientError "NoSuchKey") = true
    ∧ delete_from_r2 true (storeDelete keys k).1 = true
    ∧ delete_from_r2 true (storeDelete (storeDelete keys k).2 k).1 = true
    ∧ (storeDelete (storeDelete keys k).2 k).1
      = R2DeleteOutcome.clientError "NoSuchKey" := by
  have habs : ((storeDelete keys k).2.any (fun x => x == k)) = false := by
    unfold storeDelete
    by_cases hk : keys.any (fun x => x == k) = true
    · rw [if_pos hk]
      dsimp only
      rw [← Bool.not_eq_true]
      intro hx
      obtain ⟨x, hxmem, hxk⟩ := List.any_eq_true.mp hx
      have hneg := (List.mem_filter.mp hxmem).2
      rw [hxk] at hneg
      cases hneg
    · rw [if_neg hk]
      exact eq_false_of_ne_true hk
  have hsd : ∀ l : List String, (l.any (fun x => x == k)) = false →
      storeDelete l k = (R2DeleteOutcome.clientError "NoSuchKey", l) := by
    intro l hl
    unfold storeDelete
    rw [hl]
    rfl
  refine ⟨rfl, ?_, ?_, ?_⟩
  · unfold storeDelete
    by_cases hk : keys.any (fun x => x == k) = true
    · rw [if_pos hk]
      rfl
    · rw [if_neg hk]
      rfl
  · rw [hsd _ habs]
    rfl
  · rw [hsd _ habs]

end FWP
